import Mathlib

/-!
# Peripheral drivers of the smoke-test firmware

A shallow embedding of the drivers in `fw/smoke.c` over the register map of
`fw/user_periph.h`, and the properties of them that the specification states.

## Register model

Every register is a 32-bit cell, named by the byte address of the access
(`SPI_REG base offset`, computed in 32-bit arithmetic as the C macro does).

* A cell stores what is written to it and a load returns what the cell holds.
* The status registers that the drivers poll (`SPI_STATUS`, `I3C_STATUS`) are
  driven by the device: their successive reads return the successive elements
  of `Bus.status`.  When that list is used up while a driver still needs a
  status value, the driver has not returned, and its model yields `none`.
* Every access is appended to `Bus.trace`, in program order, so that
  "register X is not read / not written during the call" can be stated.

Machine integers are natural numbers; a store truncates to 32 bits and the
conversions to `uint8_t` are written as `% 256`.
-/

namespace Smoke

/-! ## Register map (`fw/user_periph.h`) -/

def SPI0_BASE_ADDR : Nat := 0x30000000
def SPI1_BASE_ADDR : Nat := 0x30000100
def SPI2_BASE_ADDR : Nat := 0x30000200
def SPI3_BASE_ADDR : Nat := 0x30000300
def I3C_BASE_ADDR : Nat := 0x30001000
def GPIO_BASE_ADDR : Nat := 0x30002000

def SPI_RXDATA_OFFSET : Nat := 0x00
def SPI_TXDATA_OFFSET : Nat := 0x04
def SPI_CFG_OFFSET : Nat := 0x08
def SPI_CTRL_OFFSET : Nat := 0x0C
def SPI_PR_OFFSET : Nat := 0x10
def SPI_STATUS_OFFSET : Nat := 0x14
def SPI_GCLK_OFFSET : Nat := 0xFF10

def I3C_CTRL_OFFSET : Nat := 0x00
def I3C_STATUS_OFFSET : Nat := 0x04
def I3C_DATA_OFFSET : Nat := 0x08
def I3C_ADDR_OFFSET : Nat := 0x0C
def I3C_IRQ_EN_OFFSET : Nat := 0x10
def I3C_IRQ_STAT_OFFSET : Nat := 0x14
def I3C_IRQ_CLR_OFFSET : Nat := 0x18

def GPIO_DATAI_OFFSET : Nat := 0x00
def GPIO_DATAO_OFFSET : Nat := 0x04
def GPIO_DIR_OFFSET : Nat := 0x08
def GPIO_IM_OFFSET : Nat := 0x0F00
def GPIO_RIS_OFFSET : Nat := 0x0F08
def GPIO_MIS_OFFSET : Nat := 0x0F04
def GPIO_IC_OFFSET : Nat := 0x0F0C

/-- The address accessed by `SPI_REG(base, offset)`: `base + offset` in 32-bit
unsigned arithmetic. -/
def SPI_REG (base offset : Nat) : Nat := (base + offset) % 2 ^ 32

def I3C_CTRL : Nat := SPI_REG I3C_BASE_ADDR I3C_CTRL_OFFSET
def I3C_STATUS : Nat := SPI_REG I3C_BASE_ADDR I3C_STATUS_OFFSET
def I3C_DATA : Nat := SPI_REG I3C_BASE_ADDR I3C_DATA_OFFSET
def I3C_ADDR : Nat := SPI_REG I3C_BASE_ADDR I3C_ADDR_OFFSET
def I3C_IRQ_EN : Nat := SPI_REG I3C_BASE_ADDR I3C_IRQ_EN_OFFSET
def I3C_IRQ_STAT : Nat := SPI_REG I3C_BASE_ADDR I3C_IRQ_STAT_OFFSET
def I3C_IRQ_CLR : Nat := SPI_REG I3C_BASE_ADDR I3C_IRQ_CLR_OFFSET

def GPIO_DATAI : Nat := SPI_REG GPIO_BASE_ADDR GPIO_DATAI_OFFSET
def GPIO_DATAO : Nat := SPI_REG GPIO_BASE_ADDR GPIO_DATAO_OFFSET
def GPIO_DIR : Nat := SPI_REG GPIO_BASE_ADDR GPIO_DIR_OFFSET
def GPIO_IM : Nat := SPI_REG GPIO_BASE_ADDR GPIO_IM_OFFSET
def GPIO_RIS : Nat := SPI_REG GPIO_BASE_ADDR GPIO_RIS_OFFSET
def GPIO_MIS : Nat := SPI_REG GPIO_BASE_ADDR GPIO_MIS_OFFSET
def GPIO_IC : Nat := SPI_REG GPIO_BASE_ADDR GPIO_IC_OFFSET

def SPI_CFG_CPOL : Nat := 1 <<< 0
def SPI_CFG_CPHA : Nat := 1 <<< 1

def SPI_CTRL_SS : Nat := 1 <<< 0
def SPI_CTRL_ENABLE : Nat := 1 <<< 1
def SPI_CTRL_RX_EN : Nat := 1 <<< 2

def SPI_STATUS_TX_E : Nat := 1 <<< 0
def SPI_STATUS_TX_F : Nat := 1 <<< 1
def SPI_STATUS_RX_E : Nat := 1 <<< 2
def SPI_STATUS_RX_F : Nat := 1 <<< 3
def SPI_STATUS_TX_B : Nat := 1 <<< 4
def SPI_STATUS_RX_A : Nat := 1 <<< 5
def SPI_STATUS_BUSY : Nat := 1 <<< 6
def SPI_STATUS_DONE : Nat := 1 <<< 7

def I3C_CTRL_ENABLE : Nat := 1 <<< 0
def I3C_CTRL_START : Nat := 1 <<< 1
def I3C_CTRL_STOP : Nat := 1 <<< 2
def I3C_CTRL_READ_MODE : Nat := 1 <<< 3
def I3C_CTRL_WRITE_MODE : Nat := 1 <<< 4

def I3C_STATUS_BUSY : Nat := 1 <<< 0
def I3C_STATUS_DONE : Nat := 1 <<< 1
def I3C_STATUS_ACK_RECEIVED : Nat := 1 <<< 2
def I3C_STATUS_ERROR : Nat := 1 <<< 3

def GPIO_DIR_INPUT : Nat := 0
def GPIO_DIR_OUTPUT : Nat := 1

def GPIO_IRQ_P1PE : Nat := 1 <<< 17
def GPIO_IRQ_P1NE : Nat := 1 <<< 25

/-! ## The bus -/

/-- One access of the firmware to a register, with the value transferred. -/
inductive Access where
  | read (addr val : Nat)
  | write (addr val : Nat)
  deriving DecidableEq

/-- The register file as the firmware sees it. -/
structure Bus where
  /-- Content of the storing cells, by address. -/
  mem : Nat → Nat
  /-- Values the polled status register will return, next one first. -/
  status : List Nat
  /-- Accesses made so far, oldest first. -/
  trace : List Access

/-- A 32-bit store `*(volatile uint32_t*)a = v`. -/
def Bus.store (w : Bus) (a v : Nat) : Bus :=
  { mem := fun x => if x = a then v % 2 ^ 32 else w.mem x
    status := w.status
    trace := w.trace ++ [Access.write a (v % 2 ^ 32)] }

/-- A 32-bit load `*(volatile uint32_t*)a` of a storing cell. -/
def Bus.load (w : Bus) (a : Nat) : Nat × Bus :=
  (w.mem a,
   { mem := w.mem
     status := w.status
     trace := w.trace ++ [Access.read a (w.mem a)] })

/-- One load of the device-driven status register at `a`. -/
def Bus.sample (w : Bus) (a : Nat) : Option (Nat × Bus) :=
  match w.status with
  | [] => none
  | s :: rest =>
    some (s, { mem := w.mem, status := rest, trace := w.trace ++ [Access.read a s] })

/-- The loop `while (REG(a) & flag);` run on the pending status values. -/
def pollWhile (a flag : Nat) (mem : Nat → Nat) : List Nat → List Access → Option Bus
  | [], _ => none
  | s :: rest, tr =>
    if s &&& flag ≠ 0 then pollWhile a flag mem rest (tr ++ [Access.read a s])
    else some { mem := mem, status := rest, trace := tr ++ [Access.read a s] }

/-- The loop `while (REG(a) & flag);` on a bus. -/
def Bus.waitWhile (w : Bus) (a flag : Nat) : Option Bus :=
  pollWhile a flag w.mem w.status w.trace

/-- The accesses made between the bus states `w` and `w'`. -/
def callTrace (w w' : Bus) : List Access :=
  w'.trace.drop w.trace.length

/-- The values written to the register at `a`, in order. -/
def writesTo (a : Nat) : List Access → List Nat
  | [] => []
  | Access.write x v :: t => if x = a then v :: writesTo a t else writesTo a t
  | Access.read _ _ :: t => writesTo a t

/-- The values read from the register at `a`, in order. -/
def readsOf (a : Nat) : List Access → List Nat
  | [] => []
  | Access.read x v :: t => if x = a then v :: readsOf a t else readsOf a t
  | Access.write _ _ :: t => readsOf a t

/-- All writes of a trace, as address and value, in order. -/
def allWrites : List Access → List (Nat × Nat)
  | [] => []
  | Access.write x v :: t => (x, v) :: allWrites t
  | Access.read _ _ :: t => allWrites t

/-! ## SPI driver (`fw/smoke.c`, lines 16-53) -/

/-- `void spi_init(uint32_t spi_base, uint32_t prescaler, uint32_t mode)`. -/
def spi_init (spi_base prescaler mode : Nat) (w : Bus) : Bus :=
  let w1 := w.store (SPI_REG spi_base SPI_GCLK_OFFSET) 1
  let w2 := w1.store (SPI_REG spi_base SPI_PR_OFFSET) (if prescaler < 2 then 2 else prescaler)
  let w3 := w2.store (SPI_REG spi_base SPI_CFG_OFFSET) (mode &&& 0x3)
  w3.store (SPI_REG spi_base SPI_CTRL_OFFSET) (SPI_CTRL_ENABLE ||| SPI_CTRL_RX_EN)

/-- `uint8_t spi_transfer(uint32_t spi_base, uint8_t data)`.
`~SPI_CTRL_SS` converted to `uint32_t` is `0xFFFFFFFF - SPI_CTRL_SS`. -/
def spi_transfer (spi_base data : Nat) (w : Bus) : Option (Nat × Bus) :=
  match w.waitWhile (SPI_REG spi_base SPI_STATUS_OFFSET) SPI_STATUS_TX_F with
  | none => none
  | some w1 =>
    let w2 := w1.store (SPI_REG spi_base SPI_TXDATA_OFFSET) data
    let c := w2.load (SPI_REG spi_base SPI_CTRL_OFFSET)
    let w3 := c.2.store (SPI_REG spi_base SPI_CTRL_OFFSET) (c.1 ||| SPI_CTRL_SS)
    match w3.waitWhile (SPI_REG spi_base SPI_STATUS_OFFSET) SPI_STATUS_BUSY with
    | none => none
    | some w4 =>
      let d := w4.load (SPI_REG spi_base SPI_CTRL_OFFSET)
      let w5 := d.2.store (SPI_REG spi_base SPI_CTRL_OFFSET) (d.1 &&& (0xFFFFFFFF - SPI_CTRL_SS))
      match w5.sample (SPI_REG spi_base SPI_STATUS_OFFSET) with
      | none => none
      | some (s, w6) =>
        if s &&& SPI_STATUS_RX_E = 0 then
          let r := w6.load (SPI_REG spi_base SPI_RXDATA_OFFSET)
          some ((r.1 &&& 0xFF) % 256, r.2)
        else some (0, w6)

/-! ## I3C driver (`fw/smoke.c`, lines 56-116) -/

/-- `void i3c_init(void)`. -/
def i3c_init (w : Bus) : Bus :=
  (w.store I3C_CTRL I3C_CTRL_ENABLE).store I3C_IRQ_EN 1

/-- `int i3c_write(uint8_t addr, uint8_t data)`. -/
def i3c_write (addr data : Nat) (w : Bus) : Option (Int × Bus) :=
  match w.waitWhile I3C_STATUS I3C_STATUS_BUSY with
  | none => none
  | some w1 =>
    let w2 := w1.store I3C_ADDR addr
    let w3 := w2.store I3C_DATA data
    let w4 := w3.store I3C_CTRL (I3C_CTRL_ENABLE ||| I3C_CTRL_WRITE_MODE ||| I3C_CTRL_START)
    match w4.waitWhile I3C_STATUS I3C_STATUS_BUSY with
    | none => none
    | some w5 =>
      match w5.sample I3C_STATUS with
      | none => none
      | some (s, w6) =>
        if s &&& I3C_STATUS_ERROR ≠ 0 then some (-1, w6)
        else some (0, w6.store I3C_IRQ_CLR 1)

/-- `int i3c_read(uint8_t addr, uint8_t *data)`.  The byte behind the output
pointer is passed in as `out` and returned as the second component. -/
def i3c_read (addr out : Nat) (w : Bus) : Option (Int × Nat × Bus) :=
  match w.waitWhile I3C_STATUS I3C_STATUS_BUSY with
  | none => none
  | some w1 =>
    let w2 := w1.store I3C_ADDR (addr ||| 1)
    let w3 := w2.store I3C_CTRL (I3C_CTRL_ENABLE ||| I3C_CTRL_READ_MODE ||| I3C_CTRL_START)
    match w3.waitWhile I3C_STATUS I3C_STATUS_BUSY with
    | none => none
    | some w4 =>
      match w4.sample I3C_STATUS with
      | none => none
      | some (s, w5) =>
        if s &&& I3C_STATUS_ERROR ≠ 0 then some (-1, out, w5)
        else
          let r := w5.load I3C_DATA
          some (0, (r.1 &&& 0xFF) % 256, r.2.store I3C_IRQ_CLR 1)

/-! ## GPIO driver (`fw/smoke.c`, lines 119-165) -/

/-- `void gpio_init(void)`. -/
def gpio_init (w : Bus) : Bus :=
  (w.store GPIO_DIR 0).store GPIO_IC 0xFFFFFFFF

/-- `void gpio_set_direction(uint8_t pin, uint8_t dir)`.
`~(1 << pin)` converted to `uint32_t` is `0xFFFFFFFF - (1 <<< pin)`. -/
def gpio_set_direction (pin dir : Nat) (w : Bus) : Bus :=
  if pin < 2 then
    if dir ≠ 0 then
      let r := w.load GPIO_DIR
      r.2.store GPIO_DIR (r.1 ||| (1 <<< pin))
    else
      let r := w.load GPIO_DIR
      r.2.store GPIO_DIR (r.1 &&& (0xFFFFFFFF - (1 <<< pin)))
  else w

/-- `void gpio_write(uint8_t pin, uint8_t value)`. -/
def gpio_write (pin value : Nat) (w : Bus) : Bus :=
  if pin < 2 then
    if value ≠ 0 then
      let r := w.load GPIO_DATAO
      r.2.store GPIO_DATAO (r.1 ||| (1 <<< pin))
    else
      let r := w.load GPIO_DATAO
      r.2.store GPIO_DATAO (r.1 &&& (0xFFFFFFFF - (1 <<< pin)))
  else w

/-- `uint8_t gpio_read(uint8_t pin)`. -/
def gpio_read (pin : Nat) (w : Bus) : Nat × Bus :=
  if pin < 2 then
    let r := w.load GPIO_DATAI
    (((r.1 >>> pin) &&& 1) % 256, r.2)
  else (0, w)

/-- `void gpio_enable_interrupt(uint8_t pin, uint32_t flags)`. -/
def gpio_enable_interrupt (_pin flags : Nat) (w : Bus) : Bus :=
  let r := w.load GPIO_IM
  r.2.store GPIO_IM (r.1 ||| flags)

/-- `void gpio_clear_interrupt(uint32_t flags)`. -/
def gpio_clear_interrupt (flags : Nat) (w : Bus) : Bus :=
  w.store GPIO_IC flags

/-- A bus whose cells all hold `v`, with the pending status values `st`. -/
def Bus.init (v : Nat) (st : List Nat) : Bus :=
  { mem := fun _ => v, status := st, trace := [] }

/-- A bus whose cell at `a` holds `v` and whose other cells hold zero. -/
def Bus.single (a v : Nat) (st : List Nat) : Bus :=
  { mem := fun x => if x = a then v else 0, status := st, trace := [] }

/-! ## Auxiliary facts -/

theorem callTrace_append (w w' : Bus) (evs : List Access) (h : w'.trace = w.trace ++ evs) :
    callTrace w w' = evs := by
  simp [callTrace, h]

theorem callTrace_self (w : Bus) : callTrace w w = [] := by
  simp [callTrace]

theorem testBit_clearMask (p j : Nat) (hp : p < 32) :
    (0xFFFFFFFF - (1 <<< p)).testBit j = (decide (j < 32) && !decide (p = j)) := by
  have hlt : 2 ^ p < 2 ^ 32 := Nat.pow_lt_pow_right (by decide) hp
  have hrw : 0xFFFFFFFF - (1 <<< p) = 2 ^ 32 - (2 ^ p + 1) := by
    rw [Nat.one_shiftLeft]; omega
  rw [hrw, Nat.testBit_two_pow_sub_succ hlt, Nat.testBit_two_pow]

theorem testBit_setMask (p j : Nat) : (1 <<< p).testBit j = decide (p = j) := by
  rw [Nat.one_shiftLeft, Nat.testBit_two_pow]

/-! ## SPI initialisation -/

/-- C1: after `spi_init(base, prescaler, mode)` the prescaler register of the
bank holds 2 when `prescaler < 2` and `prescaler` itself otherwise, and the
config register holds `mode & 0x3`, so none of its bits above bit 1 is set. -/
theorem spi_init_prescaler_config (spi_base prescaler mode : Nat) (w : Bus)
    (hp : prescaler < 2 ^ 32) :
    (prescaler < 2 →
      (spi_init spi_base prescaler mode w).mem (SPI_REG spi_base SPI_PR_OFFSET) = 2) ∧
    (2 ≤ prescaler →
      (spi_init spi_base prescaler mode w).mem (SPI_REG spi_base SPI_PR_OFFSET) = prescaler) ∧
    (spi_init spi_base prescaler mode w).mem (SPI_REG spi_base SPI_CFG_OFFSET) = mode &&& 0x3 ∧
    (∀ i, 2 ≤ i →
      ((spi_init spi_base prescaler mode w).mem (SPI_REG spi_base SPI_CFG_OFFSET)).testBit i
        = false) := by
  have h1 : SPI_REG spi_base SPI_PR_OFFSET ≠ SPI_REG spi_base SPI_CTRL_OFFSET := by
    simp only [SPI_REG, SPI_PR_OFFSET, SPI_CTRL_OFFSET]; omega
  have h2 : SPI_REG spi_base SPI_PR_OFFSET ≠ SPI_REG spi_base SPI_CFG_OFFSET := by
    simp only [SPI_REG, SPI_PR_OFFSET, SPI_CFG_OFFSET]; omega
  have h3 : SPI_REG spi_base SPI_CFG_OFFSET ≠ SPI_REG spi_base SPI_CTRL_OFFSET := by
    simp only [SPI_REG, SPI_CFG_OFFSET, SPI_CTRL_OFFSET]; omega
  have hm : mode &&& 0x3 < 2 ^ 2 := Nat.and_lt_two_pow mode (by decide)
  have hm32 : (mode &&& 0x3) % 2 ^ 32 = mode &&& 0x3 := Nat.mod_eq_of_lt (by omega)
  have hcfg : (spi_init spi_base prescaler mode w).mem (SPI_REG spi_base SPI_CFG_OFFSET)
      = mode &&& 0x3 := by
    simp only [spi_init, Bus.store, if_neg h3, if_true, hm32]
  refine ⟨?_, ?_, hcfg, ?_⟩
  · intro hlt
    simp only [spi_init, Bus.store, if_neg h1, if_neg h2, if_true, if_pos hlt]
    decide
  · intro hge
    have hnlt : ¬ prescaler < 2 := by omega
    simp only [spi_init, Bus.store, if_neg h1, if_neg h2, if_true, if_neg hnlt]
    exact Nat.mod_eq_of_lt hp
  · intro i hi
    rw [hcfg]
    exact Nat.testBit_lt_two_pow (lt_of_lt_of_le hm (Nat.pow_le_pow_right (by decide) hi))

/-- C1, at the calls of the integration test and at a prescaler below the minimum. -/
theorem spi_init_prescaler_config_witness :
    (spi_init SPI1_BASE_ADDR 10 3 (Bus.init 0 [])).mem (SPI_REG SPI1_BASE_ADDR SPI_PR_OFFSET) = 10 ∧
    (spi_init SPI1_BASE_ADDR 10 3 (Bus.init 0 [])).mem (SPI_REG SPI1_BASE_ADDR SPI_CFG_OFFSET) = 3 :=
  ⟨(spi_init_prescaler_config SPI1_BASE_ADDR 10 3 (Bus.init 0 []) (by decide)).2.1 (by decide),
   (spi_init_prescaler_config SPI1_BASE_ADDR 10 3 (Bus.init 0 []) (by decide)).2.2.1⟩

/-! ## GPIO -/

theorem GPIO_DATAO_ne_DIR : GPIO_DATAO ≠ GPIO_DIR := by decide

theorem GPIO_DATAO_ne_IC : GPIO_DATAO ≠ GPIO_IC := by decide

theorem GPIO_DIR_ne_IC : GPIO_DIR ≠ GPIO_IC := by decide

/-- The direction register after `gpio_set_direction` on a valid pin. -/
theorem gpio_set_direction_mem (pin dir : Nat) (w : Bus) (hpin : pin < 2) :
    (gpio_set_direction pin dir w).mem GPIO_DIR =
      if dir ≠ 0 then (w.mem GPIO_DIR ||| (1 <<< pin)) % 2 ^ 32
      else (w.mem GPIO_DIR &&& (0xFFFFFFFF - (1 <<< pin))) % 2 ^ 32 := by
  by_cases hd : dir ≠ 0
  · simp only [gpio_set_direction, if_pos hpin, if_pos hd, Bus.store, Bus.load, if_true]
  · simp only [gpio_set_direction, if_pos hpin, if_neg hd, Bus.store, Bus.load, if_true]

/-- The output-data register after `gpio_write` on a valid pin. -/
theorem gpio_write_mem (pin value : Nat) (w : Bus) (hpin : pin < 2) :
    (gpio_write pin value w).mem GPIO_DATAO =
      if value ≠ 0 then (w.mem GPIO_DATAO ||| (1 <<< pin)) % 2 ^ 32
      else (w.mem GPIO_DATAO &&& (0xFFFFFFFF - (1 <<< pin))) % 2 ^ 32 := by
  by_cases hd : value ≠ 0
  · simp only [gpio_write, if_pos hpin, if_pos hd, Bus.store, Bus.load, if_true]
  · simp only [gpio_write, if_pos hpin, if_neg hd, Bus.store, Bus.load, if_true]

/-- C6: for a pin outside {0,1}, `gpio_set_direction` and `gpio_write` make no
access at all (the bus, and so the direction and output-data registers, are
unchanged and nothing is written), and `gpio_read` returns 0 without looking
at the input-data register. -/
theorem gpio_invalid_pin_noop (pin dir value : Nat) (w : Bus) (hpin : 2 ≤ pin) :
    gpio_set_direction pin dir w = w ∧
    gpio_write pin value w = w ∧
    (gpio_set_direction pin dir w).mem GPIO_DIR = w.mem GPIO_DIR ∧
    (gpio_write pin value w).mem GPIO_DATAO = w.mem GPIO_DATAO ∧
    allWrites (callTrace w (gpio_set_direction pin dir w)) = [] ∧
    allWrites (callTrace w (gpio_write pin value w)) = [] ∧
    (gpio_read pin w).1 = 0 ∧
    (gpio_read pin w).2 = w := by
  have hn : ¬ pin < 2 := by omega
  have h1 : gpio_set_direction pin dir w = w := by simp only [gpio_set_direction, if_neg hn]
  have h2 : gpio_write pin value w = w := by simp only [gpio_write, if_neg hn]
  have h3 : gpio_read pin w = (0, w) := by simp only [gpio_read, if_neg hn]
  refine ⟨h1, h2, ?_, ?_, ?_, ?_, ?_, ?_⟩
  · rw [h1]
  · rw [h2]
  · rw [h1, callTrace_self]; rfl
  · rw [h2, callTrace_self]; rfl
  · rw [h3]
  · rw [h3]

/-- C6, at pin 2 with every input-data bit set. -/
theorem gpio_invalid_pin_noop_witness :
    (gpio_read 2 (Bus.init 0xFFFFFFFF [])).1 = 0 ∧
    (gpio_write 2 1 (Bus.init 0xFFFFFFFF [])).mem GPIO_DATAO = 0xFFFFFFFF :=
  ⟨(gpio_invalid_pin_noop 2 1 1 (Bus.init 0xFFFFFFFF []) (by decide)).2.2.2.2.2.2.1,
   (gpio_invalid_pin_noop 2 1 1 (Bus.init 0xFFFFFFFF []) (by decide)).2.2.2.1⟩

/-- C7, as the code has it: after `gpio_init()`, `gpio_set_direction(0,
GPIO_DIR_OUTPUT)`, `gpio_write(0, 1)`, bit 0 of the output-data register and
bit 0 of the direction register are 1; bit 1 of the direction register is 0,
as `gpio_init` left it (it writes 0 to the direction register); bit 1 of the
output-data register is what it was before `gpio_init`, which does not write
the output-data register. -/
theorem gpio_bringup_bits (w : Bus) :
    ((gpio_write 0 1 (gpio_set_direction 0 GPIO_DIR_OUTPUT (gpio_init w))).mem
      GPIO_DATAO).testBit 0 = true ∧
    ((gpio_write 0 1 (gpio_set_direction 0 GPIO_DIR_OUTPUT (gpio_init w))).mem
      GPIO_DIR).testBit 0 = true ∧
    (gpio_init w).mem GPIO_DIR = 0 ∧
    ((gpio_write 0 1 (gpio_set_direction 0 GPIO_DIR_OUTPUT (gpio_init w))).mem
      GPIO_DIR).testBit 1 = false ∧
    (gpio_init w).mem GPIO_DATAO = w.mem GPIO_DATAO ∧
    writesTo GPIO_DATAO (callTrace w (gpio_init w)) = [] ∧
    ((gpio_write 0 1 (gpio_set_direction 0 GPIO_DIR_OUTPUT (gpio_init w))).mem
      GPIO_DATAO).testBit 1 = (w.mem GPIO_DATAO).testBit 1 := by
  have hinitDir : (gpio_init w).mem GPIO_DIR = 0 := by
    simp only [gpio_init, Bus.store, if_neg GPIO_DIR_ne_IC, if_true]; rfl
  have hinitOut : (gpio_init w).mem GPIO_DATAO = w.mem GPIO_DATAO := by
    simp only [gpio_init, Bus.store, if_neg GPIO_DATAO_ne_IC, if_neg GPIO_DATAO_ne_DIR]
  have hdirOut : (gpio_set_direction 0 GPIO_DIR_OUTPUT (gpio_init w)).mem GPIO_DATAO
      = w.mem GPIO_DATAO := by
    rw [← hinitOut]
    simp [gpio_set_direction, GPIO_DIR_OUTPUT, Bus.store, Bus.load, GPIO_DATAO_ne_DIR]
  have hwrDir : (gpio_write 0 1 (gpio_set_direction 0 GPIO_DIR_OUTPUT (gpio_init w))).mem GPIO_DIR
      = (gpio_set_direction 0 GPIO_DIR_OUTPUT (gpio_init w)).mem GPIO_DIR := by
    simp [gpio_write, Bus.store, Bus.load, GPIO_DATAO_ne_DIR.symm]
  have hdir : (gpio_set_direction 0 GPIO_DIR_OUTPUT (gpio_init w)).mem GPIO_DIR = 1 := by
    rw [gpio_set_direction_mem 0 GPIO_DIR_OUTPUT _ (by decide), hinitDir]; rfl
  have hout : (gpio_write 0 1 (gpio_set_direction 0 GPIO_DIR_OUTPUT (gpio_init w))).mem GPIO_DATAO
      = (w.mem GPIO_DATAO ||| 1) % 2 ^ 32 := by
    rw [gpio_write_mem 0 1 _ (by decide), hdirOut]; rfl
  refine ⟨?_, ?_, hinitDir, ?_, hinitOut, ?_, ?_⟩
  · rw [hout, Nat.testBit_mod_two_pow, Nat.testBit_or]; simp
  · rw [hwrDir, hdir]; rfl
  · rw [hwrDir, hdir]; rfl
  · rw [callTrace_append w (gpio_init w) [Access.write GPIO_DIR 0, Access.write GPIO_IC 0xFFFFFFFF]
      (by simp [gpio_init, Bus.store])]
    decide
  · have h11 : Nat.testBit 1 1 = false := by decide
    rw [hout, Nat.testBit_mod_two_pow, Nat.testBit_or, h11]; simp

/-- C7 as stated fails when the output-data register holds 2 beforehand:
`gpio_init` leaves it at 2, and bit 1 of the output-data register is 1, not 0,
after the sequence (the register holds 3). -/
theorem gpio_bringup_output_bit1_not_cleared :
    (gpio_init (Bus.single GPIO_DATAO 2 [])).mem GPIO_DATAO = 2 ∧
    (gpio_write 0 1 (gpio_set_direction 0 GPIO_DIR_OUTPUT
      (gpio_init (Bus.single GPIO_DATAO 2 [])))).mem GPIO_DATAO = 3 ∧
    ¬ ((gpio_write 0 1 (gpio_set_direction 0 GPIO_DIR_OUTPUT
      (gpio_init (Bus.single GPIO_DATAO 2 [])))).mem GPIO_DATAO).testBit 1 = false := by
  decide

/-- The direction register after `gpio_set_direction` on a valid pin, bit by
bit: bit `pin` is set exactly when `dir` is nonzero, and every other bit of the
register is unchanged. -/
theorem gpio_set_direction_bits (pin dir : Nat) (w : Bus) (hpin : pin < 2) :
    ((gpio_set_direction pin dir w).mem GPIO_DIR).testBit pin = decide (dir ≠ 0) ∧
    (∀ j, j < 32 → j ≠ pin →
      ((gpio_set_direction pin dir w).mem GPIO_DIR).testBit j = (w.mem GPIO_DIR).testBit j) := by
  have hp32 : pin < 32 := by omega
  constructor
  · rw [gpio_set_direction_mem pin dir w hpin]
    by_cases hd : dir ≠ 0
    · rw [if_pos hd, Nat.testBit_mod_two_pow, Nat.testBit_or, testBit_setMask]
      simp [hp32, hd]
    · rw [if_neg hd, Nat.testBit_mod_two_pow, Nat.testBit_and, testBit_clearMask pin pin hp32]
      simp [hd]
  · intro j hj hne
    have hne2 : ¬ pin = j := fun h => hne h.symm
    rw [gpio_set_direction_mem pin dir w hpin]
    by_cases hd : dir ≠ 0
    · rw [if_pos hd, Nat.testBit_mod_two_pow, Nat.testBit_or, testBit_setMask]
      simp [hj, hne2]
    · rw [if_neg hd, Nat.testBit_mod_two_pow, Nat.testBit_and, testBit_clearMask pin j hp32]
      simp [hj, hne2]

/-- C8: for every pin in {0,1}, every direction value `dir` (GPIO_DIR_INPUT or
GPIO_DIR_OUTPUT) and every prior content of the direction register, reading
the direction register back after `gpio_set_direction(pin, dir)` gives bit
`pin` equal to `dir`; the other pin's direction bit, as every other bit of the
register, is unchanged. -/
theorem gpio_set_direction_readback (pin dir : Nat) (w : Bus) (hpin : pin < 2)
    (hdir : dir = GPIO_DIR_INPUT ∨ dir = GPIO_DIR_OUTPUT) :
    (((gpio_set_direction pin dir w).mem GPIO_DIR).testBit pin).toNat = dir ∧
    ((gpio_set_direction pin dir w).mem GPIO_DIR).testBit (1 - pin)
      = (w.mem GPIO_DIR).testBit (1 - pin) ∧
    (∀ j, j < 32 → j ≠ pin →
      ((gpio_set_direction pin dir w).mem GPIO_DIR).testBit j = (w.mem GPIO_DIR).testBit j) := by
  obtain ⟨hbit, hrest⟩ := gpio_set_direction_bits pin dir w hpin
  refine ⟨?_, hrest (1 - pin) (by omega) (by omega), hrest⟩
  rw [hbit]
  rcases hdir with hd | hd
  · rw [hd]; rfl
  · rw [hd]; rfl

/-- C8, at pin 1 set to output while pin 0 is already an output: bit 1 reads
back as GPIO_DIR_OUTPUT and bit 0 is still set. -/
theorem gpio_set_direction_readback_witness :
    (((gpio_set_direction 1 GPIO_DIR_OUTPUT (Bus.single GPIO_DIR 1 [])).mem GPIO_DIR).testBit
      1).toNat = GPIO_DIR_OUTPUT ∧
    ((gpio_set_direction 1 GPIO_DIR_OUTPUT (Bus.single GPIO_DIR 1 [])).mem GPIO_DIR).testBit 0
      = true :=
  ⟨(gpio_set_direction_readback 1 GPIO_DIR_OUTPUT (Bus.single GPIO_DIR 1 []) (by decide)
      (Or.inr rfl)).1,
   (gpio_set_direction_readback 1 GPIO_DIR_OUTPUT (Bus.single GPIO_DIR 1 []) (by decide)
      (Or.inr rfl)).2.1⟩

/-- C10: `gpio_enable_interrupt(pin, flags)` leaves the interrupt-mask register
equal to its prior value ORed with `flags`; the outcome is the same for any two
pin arguments; every mask bit that was set stays set; the only write of the
call is that one write to the interrupt-mask register, and every other cell is
as before. -/
theorem gpio_enable_interrupt_or (pin flags : Nat) (w : Bus)
    (hm : w.mem GPIO_IM < 2 ^ 32) (hf : flags < 2 ^ 32) :
    (gpio_enable_interrupt pin flags w).mem GPIO_IM = w.mem GPIO_IM ||| flags ∧
    (∀ pin2, gpio_enable_interrupt pin2 flags w = gpio_enable_interrupt pin flags w) ∧
    (∀ i, (w.mem GPIO_IM).testBit i = true →
      ((gpio_enable_interrupt pin flags w).mem GPIO_IM).testBit i = true) ∧
    allWrites (callTrace w (gpio_enable_interrupt pin flags w))
      = [(GPIO_IM, w.mem GPIO_IM ||| flags)] ∧
    (∀ a, a ≠ GPIO_IM → (gpio_enable_interrupt pin flags w).mem a = w.mem a) := by
  have hlt : w.mem GPIO_IM ||| flags < 2 ^ 32 := Nat.or_lt_two_pow hm hf
  have hmod : (w.mem GPIO_IM ||| flags) % 2 ^ 32 = w.mem GPIO_IM ||| flags :=
    Nat.mod_eq_of_lt hlt
  have hmem : (gpio_enable_interrupt pin flags w).mem GPIO_IM = w.mem GPIO_IM ||| flags := by
    simp only [gpio_enable_interrupt, Bus.store, Bus.load, if_true, hmod]
  refine ⟨hmem, fun _ => rfl, ?_, ?_, ?_⟩
  · intro i hi
    rw [hmem, Nat.testBit_or, hi]; rfl
  · rw [callTrace_append w (gpio_enable_interrupt pin flags w)
      [Access.read GPIO_IM (w.mem GPIO_IM), Access.write GPIO_IM (w.mem GPIO_IM ||| flags)]
      (by simp only [gpio_enable_interrupt, Bus.store, Bus.load, hmod, List.append_assoc,
        List.cons_append, List.nil_append])]
    rfl
  · intro a ha
    simp only [gpio_enable_interrupt, Bus.store, Bus.load, if_neg ha]

/-- C10, at the call made by `main`, with a level interrupt already enabled. -/
theorem gpio_enable_interrupt_or_witness :
    (gpio_enable_interrupt 1 (GPIO_IRQ_P1PE ||| GPIO_IRQ_P1NE) (Bus.single GPIO_IM 1 [])).mem GPIO_IM
      = 1 ||| (GPIO_IRQ_P1PE ||| GPIO_IRQ_P1NE) :=
  (gpio_enable_interrupt_or 1 (GPIO_IRQ_P1PE ||| GPIO_IRQ_P1NE) (Bus.single GPIO_IM 1 [])
    (by decide) (by decide)).1

/-! ## Polling loops -/

/-- A polling loop that is answered by values with the flag set and then by one
with the flag clear ends at that one, having read all of them. -/
theorem pollWhile_run (a flag : Nat) (mem : Nat → Nat) (pre : List Nat) (s : Nat)
    (rest : List Nat) (tr : List Access)
    (hpre : ∀ x ∈ pre, x &&& flag ≠ 0) (hs : s &&& flag = 0) :
    pollWhile a flag mem (pre ++ s :: rest) tr
      = some { mem := mem, status := rest,
               trace := tr ++ (pre.map (Access.read a) ++ [Access.read a s]) } := by
  induction pre generalizing tr with
  | nil => simp [pollWhile, hs]
  | cons x xs ih =>
    have hx : x &&& flag ≠ 0 := hpre x (List.mem_cons_self x xs)
    have hxs : ∀ y ∈ xs, y &&& flag ≠ 0 := fun y hy => hpre y (List.mem_cons_of_mem x hy)
    have hstep : pollWhile a flag mem (x :: xs ++ s :: rest) tr
        = pollWhile a flag mem (xs ++ s :: rest) (tr ++ [Access.read a x]) := by
      show pollWhile a flag mem (x :: (xs ++ s :: rest)) tr = _
      simp only [pollWhile, if_pos hx]
    rw [hstep, ih _ hxs]
    simp only [List.map_cons, List.append_assoc, List.cons_append, List.nil_append]

/-- A polling loop that ends was answered by values with the flag set and then
by one with the flag clear. -/
theorem pollWhile_some (a flag : Nat) (mem : Nat → Nat) (st : List Nat) (tr : List Access)
    (w1 : Bus) (h : pollWhile a flag mem st tr = some w1) :
    ∃ pre s, st = pre ++ s :: w1.status ∧ (∀ x ∈ pre, x &&& flag ≠ 0) ∧ s &&& flag = 0 := by
  induction st generalizing tr with
  | nil => simp [pollWhile] at h
  | cons x xs ih =>
    by_cases hx : x &&& flag ≠ 0
    · simp only [pollWhile, if_pos hx] at h
      obtain ⟨pre, s, hst, hpre, hs⟩ := ih _ h
      refine ⟨x :: pre, s, by rw [hst]; rfl, ?_, hs⟩
      intro y hy
      rcases List.mem_cons.mp hy with rfl | hy
      · exact hx
      · exact hpre y hy
    · simp only [pollWhile, if_neg hx] at h
      have hw : w1.status = xs := by
        rw [← Option.some.inj h]
      refine ⟨[], x, by rw [hw]; rfl, by simp, by simpa using hx⟩

theorem readsOf_append (a : Nat) (l₁ l₂ : List Access) :
    readsOf a (l₁ ++ l₂) = readsOf a l₁ ++ readsOf a l₂ := by
  induction l₁ with
  | nil => rfl
  | cons x xs ih =>
    cases x with
    | read y v =>
      by_cases hy : y = a
      · simp [readsOf, hy, ih]
      · simp [readsOf, hy, ih]
    | write y v => simp [readsOf, ih]

theorem writesTo_append (a : Nat) (l₁ l₂ : List Access) :
    writesTo a (l₁ ++ l₂) = writesTo a l₁ ++ writesTo a l₂ := by
  induction l₁ with
  | nil => rfl
  | cons x xs ih =>
    cases x with
    | write y v =>
      by_cases hy : y = a
      · simp [writesTo, hy, ih]
      · simp [writesTo, hy, ih]
    | read y v => simp [writesTo, ih]

theorem writesTo_reads (a b : Nat) (l : List Nat) :
    writesTo a (l.map (Access.read b)) = [] := by
  induction l with
  | nil => rfl
  | cons x xs ih => simp [writesTo, ih]

theorem readsOf_reads_ne (a b : Nat) (l : List Nat) (h : b ≠ a) :
    readsOf a (l.map (Access.read b)) = [] := by
  induction l with
  | nil => rfl
  | cons x xs ih => simp [readsOf, h, ih]

theorem readsOf_reads_self (a : Nat) (l : List Nat) :
    readsOf a (l.map (Access.read a)) = l := by
  induction l with
  | nil => rfl
  | cons x xs ih => simp [readsOf, ih]

/-! ## SPI transfer -/

theorem spi_tx_ne_ctrl (b : Nat) : SPI_REG b SPI_TXDATA_OFFSET ≠ SPI_REG b SPI_CTRL_OFFSET := by
  simp only [SPI_REG, SPI_TXDATA_OFFSET, SPI_CTRL_OFFSET]; omega

theorem spi_rx_ne_ctrl (b : Nat) : SPI_REG b SPI_RXDATA_OFFSET ≠ SPI_REG b SPI_CTRL_OFFSET := by
  simp only [SPI_REG, SPI_RXDATA_OFFSET, SPI_CTRL_OFFSET]; omega

theorem spi_rx_ne_tx (b : Nat) : SPI_REG b SPI_RXDATA_OFFSET ≠ SPI_REG b SPI_TXDATA_OFFSET := by
  simp only [SPI_REG, SPI_RXDATA_OFFSET, SPI_TXDATA_OFFSET]; omega

theorem spi_status_ne_rx (b : Nat) :
    SPI_REG b SPI_STATUS_OFFSET ≠ SPI_REG b SPI_RXDATA_OFFSET := by
  simp only [SPI_REG, SPI_RXDATA_OFFSET, SPI_STATUS_OFFSET]; omega

/-- What `spi_transfer` does when the status polls are answered by `pre` (all
with TX-full set), `s1` (TX-full clear), `mid` (all busy), `s2` (not busy) and
`s3` (the sample tested for RX-empty): it returns, and the result, the final
registers and the accesses of the call are as given. -/
theorem spi_transfer_run (spi_base data : Nat) (w : Bus) (pre : List Nat) (s1 : Nat)
    (mid : List Nat) (s2 s3 : Nat) (rest : List Nat)
    (hst : w.status = pre ++ s1 :: (mid ++ s2 :: s3 :: rest))
    (hpre : ∀ x ∈ pre, x &&& SPI_STATUS_TX_F ≠ 0) (h1 : s1 &&& SPI_STATUS_TX_F = 0)
    (hmid : ∀ x ∈ mid, x &&& SPI_STATUS_BUSY ≠ 0) (h2 : s2 &&& SPI_STATUS_BUSY = 0) :
    ∃ r w', spi_transfer spi_base data w = some (r, w') ∧
      r = (if s3 &&& SPI_STATUS_RX_E = 0
            then (w.mem (SPI_REG spi_base SPI_RXDATA_OFFSET) &&& 0xFF) % 256 else 0) ∧
      w'.status = rest ∧
      w'.mem (SPI_REG spi_base SPI_CTRL_OFFSET)
        = (((w.mem (SPI_REG spi_base SPI_CTRL_OFFSET) ||| SPI_CTRL_SS) % 2 ^ 32)
            &&& (0xFFFFFFFF - SPI_CTRL_SS)) % 2 ^ 32 ∧
      w'.mem (SPI_REG spi_base SPI_TXDATA_OFFSET) = data % 2 ^ 32 ∧
      w'.mem (SPI_REG spi_base SPI_RXDATA_OFFSET) = w.mem (SPI_REG spi_base SPI_RXDATA_OFFSET) ∧
      w'.trace = w.trace ++
        (pre.map (Access.read (SPI_REG spi_base SPI_STATUS_OFFSET)) ++
         [Access.read (SPI_REG spi_base SPI_STATUS_OFFSET) s1,
          Access.write (SPI_REG spi_base SPI_TXDATA_OFFSET) (data % 2 ^ 32),
          Access.read (SPI_REG spi_base SPI_CTRL_OFFSET)
            (w.mem (SPI_REG spi_base SPI_CTRL_OFFSET)),
          Access.write (SPI_REG spi_base SPI_CTRL_OFFSET)
            ((w.mem (SPI_REG spi_base SPI_CTRL_OFFSET) ||| SPI_CTRL_SS) % 2 ^ 32)] ++
         mid.map (Access.read (SPI_REG spi_base SPI_STATUS_OFFSET)) ++
         [Access.read (SPI_REG spi_base SPI_STATUS_OFFSET) s2,
          Access.read (SPI_REG spi_base SPI_CTRL_OFFSET)
            ((w.mem (SPI_REG spi_base SPI_CTRL_OFFSET) ||| SPI_CTRL_SS) % 2 ^ 32),
          Access.write (SPI_REG spi_base SPI_CTRL_OFFSET)
            ((((w.mem (SPI_REG spi_base SPI_CTRL_OFFSET) ||| SPI_CTRL_SS) % 2 ^ 32)
              &&& (0xFFFFFFFF - SPI_CTRL_SS)) % 2 ^ 32),
          Access.read (SPI_REG spi_base SPI_STATUS_OFFSET) s3] ++
         (if s3 &&& SPI_STATUS_RX_E = 0
            then [Access.read (SPI_REG spi_base SPI_RXDATA_OFFSET)
                    (w.mem (SPI_REG spi_base SPI_RXDATA_OFFSET))]
            else [])) := by
  have hTC := spi_tx_ne_ctrl spi_base
  have hRC := spi_rx_ne_ctrl spi_base
  have hRT := spi_rx_ne_tx spi_base
  cases hres : spi_transfer spi_base data w with
  | none =>
    exfalso
    by_cases h3 : s3 &&& SPI_STATUS_RX_E = 0
    · simp only [spi_transfer, Bus.waitWhile, hst, pollWhile_run _ _ _ _ _ _ _ hpre h1,
        Bus.store, Bus.load, pollWhile_run _ _ _ _ _ _ _ hmid h2, Bus.sample, if_pos h3] at hres
      cases hres
    · simp only [spi_transfer, Bus.waitWhile, hst, pollWhile_run _ _ _ _ _ _ _ hpre h1,
        Bus.store, Bus.load, pollWhile_run _ _ _ _ _ _ _ hmid h2, Bus.sample, if_neg h3] at hres
      cases hres
  | some p =>
    by_cases h3 : s3 &&& SPI_STATUS_RX_E = 0
    · simp only [spi_transfer, Bus.waitWhile, hst, pollWhile_run _ _ _ _ _ _ _ hpre h1,
        Bus.store, Bus.load, pollWhile_run _ _ _ _ _ _ _ hmid h2, Bus.sample, if_pos h3] at hres
      obtain rfl := Option.some.inj hres
      refine ⟨_, _, rfl, ?_⟩
      simp only [if_true, if_neg hRC, if_neg hRT, if_neg hTC, if_neg hTC.symm, if_pos h3,
        List.append_assoc, List.cons_append, List.nil_append, and_self]
    · simp only [spi_transfer, Bus.waitWhile, hst, pollWhile_run _ _ _ _ _ _ _ hpre h1,
        Bus.store, Bus.load, pollWhile_run _ _ _ _ _ _ _ hmid h2, Bus.sample, if_neg h3] at hres
      obtain rfl := Option.some.inj hres
      refine ⟨_, _, rfl, ?_⟩
      simp only [if_true, if_neg hRC, if_neg hRT, if_neg hTC, if_neg hTC.symm, if_neg h3,
        List.append_assoc, List.cons_append, List.nil_append, and_self]

theorem sample_some (w : Bus) (a s : Nat) (w1 : Bus) (h : w.sample a = some (s, w1)) :
    w.status = s :: w1.status := by
  unfold Bus.sample at h
  split at h
  · cases h
  · rename_i x rest hx
    have h2 := Option.some.inj h
    rw [hx, ← (Prod.mk.inj h2).1, ← (Prod.mk.inj h2).2]

/-- Every run of `spi_transfer` that returns was answered as `spi_transfer_run`
supposes. -/
theorem spi_transfer_shape (spi_base data : Nat) (w : Bus) (r : Nat) (w' : Bus)
    (h : spi_transfer spi_base data w = some (r, w')) :
    ∃ pre s1 mid s2 s3,
      w.status = pre ++ s1 :: (mid ++ s2 :: s3 :: w'.status) ∧
      (∀ x ∈ pre, x &&& SPI_STATUS_TX_F ≠ 0) ∧ s1 &&& SPI_STATUS_TX_F = 0 ∧
      (∀ x ∈ mid, x &&& SPI_STATUS_BUSY ≠ 0) ∧ s2 &&& SPI_STATUS_BUSY = 0 := by
  unfold spi_transfer at h
  split at h
  · cases h
  · rename_i w1 hw1
    obtain ⟨pre, s1, hs1, hpre, h1⟩ := pollWhile_some _ _ _ _ _ _ hw1
    simp only at h
    split at h
    · cases h
    · rename_i w4 hw4
      obtain ⟨mid, s2, hs4, hmid, h2⟩ := pollWhile_some _ _ _ _ _ _ hw4
      split at h
      · cases h
      · rename_i s3 w6 hw6
        have hs6 := sample_some _ _ _ _ hw6
        have hw' : w'.status = w6.status := by
          split at h
          · rw [← (Prod.mk.inj (Option.some.inj h)).2]; rfl
          · rw [← (Prod.mk.inj (Option.some.inj h)).2]
        refine ⟨pre, s1, mid, s2, s3, ?_, hpre, h1, hmid, h2⟩
        rw [hs1, hw']
        simp only [Bus.store, Bus.load] at hs4 hs6
        rw [hs4, hs6]

/-- C2: whenever `spi_transfer` returns, on the path that returns the received
byte as on the path that returns 0, bit 0 (slave-select) of the control
register of the bank is clear and the other bits of that 32-bit register are
as they were before the call. -/
theorem spi_transfer_deasserts_ss (spi_base data : Nat) (w : Bus) (r : Nat) (w' : Bus)
    (h : spi_transfer spi_base data w = some (r, w')) :
    (w'.mem (SPI_REG spi_base SPI_CTRL_OFFSET)).testBit 0 = false ∧
    (∀ i, i ≠ 0 → i < 32 →
      (w'.mem (SPI_REG spi_base SPI_CTRL_OFFSET)).testBit i
        = (w.mem (SPI_REG spi_base SPI_CTRL_OFFSET)).testBit i) := by
  obtain ⟨pre, s1, mid, s2, s3, hst, hpre, h1, hmid, h2⟩ := spi_transfer_shape _ _ _ _ _ h
  obtain ⟨r2, w2, hrun, -, -, hctrl, -⟩ :=
    spi_transfer_run spi_base data w pre s1 mid s2 s3 w'.status hst hpre h1 hmid h2
  rw [h] at hrun
  obtain rfl : w' = w2 := (Prod.mk.inj (Option.some.inj hrun)).2
  rw [hctrl]
  have hss : SPI_CTRL_SS = 1 <<< 0 := rfl
  constructor
  · rw [Nat.testBit_mod_two_pow, Nat.testBit_and, hss, testBit_clearMask 0 0 (by decide)]
    simp
  · intro i hi hi32
    have hi0 : ¬ 0 = i := fun e => hi e.symm
    rw [Nat.testBit_mod_two_pow, Nat.testBit_and, Nat.testBit_mod_two_pow, Nat.testBit_or, hss,
      testBit_clearMask 0 i (by decide), testBit_setMask]
    simp [hi32, hi0]

/-- C2, at the first transfer of `main` after `spi_init`: the device answers
TX-full once, then busy once, and the byte 0xA5 is waiting in RX. -/
theorem spi_transfer_deasserts_ss_witness :
    (((spi_transfer SPI0_BASE_ADDR 0xA5
        (spi_init SPI0_BASE_ADDR 10 0
          (Bus.single (SPI_REG SPI0_BASE_ADDR SPI_RXDATA_OFFSET) 0xA5
            [SPI_STATUS_TX_F, 0, SPI_STATUS_BUSY, 0, 0]))).get (by decide)).2.mem
      (SPI_REG SPI0_BASE_ADDR SPI_CTRL_OFFSET)).testBit 0 = false :=
  (spi_transfer_deasserts_ss SPI0_BASE_ADDR 0xA5
    (spi_init SPI0_BASE_ADDR 10 0
      (Bus.single (SPI_REG SPI0_BASE_ADDR SPI_RXDATA_OFFSET) 0xA5
        [SPI_STATUS_TX_F, 0, SPI_STATUS_BUSY, 0, 0]))
    0xA5 _ rfl).1

/-- C9: whenever `spi_transfer` returns, the accesses of the call end with the
write that deasserts slave-select (value `c`, bit 0 clear), the status sample
`s` taken after it and, only when RX-empty is clear in `s`, one read of the RX
data register.  When RX-empty is clear in `s` the result is the low 8 bits of
the RX data register; when it is set the result is 0 and the RX data register
is not read.  The TX data register is written once, with the given byte. -/
theorem spi_transfer_result (spi_base data : Nat) (w : Bus) (r : Nat) (w' : Bus)
    (hd : data < 256) (h : spi_transfer spi_base data w = some (r, w')) :
    ∃ evs c s,
      callTrace w w' = evs ++
        [Access.write (SPI_REG spi_base SPI_CTRL_OFFSET) c,
         Access.read (SPI_REG spi_base SPI_STATUS_OFFSET) s] ++
        (if s &&& SPI_STATUS_RX_E = 0
          then [Access.read (SPI_REG spi_base SPI_RXDATA_OFFSET)
                  (w'.mem (SPI_REG spi_base SPI_RXDATA_OFFSET))]
          else []) ∧
      c.testBit 0 = false ∧
      (s &&& SPI_STATUS_RX_E = 0 →
        r = w'.mem (SPI_REG spi_base SPI_RXDATA_OFFSET) &&& 0xFF ∧
        readsOf (SPI_REG spi_base SPI_RXDATA_OFFSET) (callTrace w w')
          = [w'.mem (SPI_REG spi_base SPI_RXDATA_OFFSET)]) ∧
      (s &&& SPI_STATUS_RX_E ≠ 0 →
        r = 0 ∧ readsOf (SPI_REG spi_base SPI_RXDATA_OFFSET) (callTrace w w') = []) ∧
      writesTo (SPI_REG spi_base SPI_TXDATA_OFFSET) (callTrace w w') = [data] := by
  obtain ⟨pre, s1, mid, s2, s3, hst, hpre, h1, hmid, h2⟩ := spi_transfer_shape _ _ _ _ _ h
  obtain ⟨r2, w2, hrun, hr, -, -, -, hrx, htr⟩ :=
    spi_transfer_run spi_base data w pre s1 mid s2 s3 w'.status hst hpre h1 hmid h2
  rw [h] at hrun
  obtain rfl : w' = w2 := (Prod.mk.inj (Option.some.inj hrun)).2
  obtain rfl : r = r2 := (Prod.mk.inj (Option.some.inj hrun)).1
  have hTC := spi_tx_ne_ctrl spi_base
  have hRC := spi_rx_ne_ctrl spi_base
  have hRT := spi_rx_ne_tx spi_base
  have hSR := spi_status_ne_rx spi_base
  have hdm : data % 2 ^ 32 = data := Nat.mod_eq_of_lt (by omega)
  have hss : SPI_CTRL_SS = 1 <<< 0 := rfl
  have hlow : ∀ v : Nat, (v &&& 0xFF) % 256 = v &&& 0xFF := fun v =>
    Nat.mod_eq_of_lt (Nat.and_lt_two_pow v (show 0xFF < 2 ^ 8 by decide))
  have hct := callTrace_append w w' _ htr
  refine ⟨pre.map (Access.read (SPI_REG spi_base SPI_STATUS_OFFSET)) ++
      [Access.read (SPI_REG spi_base SPI_STATUS_OFFSET) s1,
       Access.write (SPI_REG spi_base SPI_TXDATA_OFFSET) (data % 2 ^ 32),
       Access.read (SPI_REG spi_base SPI_CTRL_OFFSET) (w.mem (SPI_REG spi_base SPI_CTRL_OFFSET)),
       Access.write (SPI_REG spi_base SPI_CTRL_OFFSET)
         ((w.mem (SPI_REG spi_base SPI_CTRL_OFFSET) ||| SPI_CTRL_SS) % 2 ^ 32)] ++
      mid.map (Access.read (SPI_REG spi_base SPI_STATUS_OFFSET)) ++
      [Access.read (SPI_REG spi_base SPI_STATUS_OFFSET) s2,
       Access.read (SPI_REG spi_base SPI_CTRL_OFFSET)
         ((w.mem (SPI_REG spi_base SPI_CTRL_OFFSET) ||| SPI_CTRL_SS) % 2 ^ 32)],
    (((w.mem (SPI_REG spi_base SPI_CTRL_OFFSET) ||| SPI_CTRL_SS) % 2 ^ 32)
      &&& (0xFFFFFFFF - SPI_CTRL_SS)) % 2 ^ 32,
    s3, ?_, ?_, ?_, ?_, ?_⟩
  · rw [hct, hrx]
    simp only [List.append_assoc, List.cons_append, List.nil_append]
  · rw [Nat.testBit_mod_two_pow, Nat.testBit_and, hss, testBit_clearMask 0 0 (by decide)]
    simp
  · intro h3
    refine ⟨by rw [hr, if_pos h3, hrx, hlow], ?_⟩
    rw [hct, if_pos h3, hrx]
    simp [readsOf_append, readsOf, readsOf_reads_ne _ _ _ hSR, hSR, hRC.symm, hRT.symm]
  · intro h3
    refine ⟨by rw [hr, if_neg h3], ?_⟩
    rw [hct, if_neg h3]
    simp [readsOf_append, readsOf, readsOf_reads_ne _ _ _ hSR, hSR, hRC.symm, hRT.symm]
  · rw [hct, hdm]
    by_cases h3 : s3 &&& SPI_STATUS_RX_E = 0
    · simp [writesTo_append, writesTo, writesTo_reads, hTC.symm, h3]
    · simp [writesTo_append, writesTo, writesTo_reads, hTC.symm, h3]

/-- C9, at the first transfer of `main`: 0xA5 is written to TX data. -/
theorem spi_transfer_result_witness :
    writesTo (SPI_REG SPI0_BASE_ADDR SPI_TXDATA_OFFSET)
      (callTrace
        (Bus.single (SPI_REG SPI0_BASE_ADDR SPI_RXDATA_OFFSET) 0x5A
          [SPI_STATUS_TX_F, 0, SPI_STATUS_BUSY, 0, 0])
        ((spi_transfer SPI0_BASE_ADDR 0xA5
          (Bus.single (SPI_REG SPI0_BASE_ADDR SPI_RXDATA_OFFSET) 0x5A
            [SPI_STATUS_TX_F, 0, SPI_STATUS_BUSY, 0, 0])).get (by decide)).2) = [0xA5] :=
  Exists.elim
    (spi_transfer_result SPI0_BASE_ADDR 0xA5
      (Bus.single (SPI_REG SPI0_BASE_ADDR SPI_RXDATA_OFFSET) 0x5A
        [SPI_STATUS_TX_F, 0, SPI_STATUS_BUSY, 0, 0])
      0x5A _ (by decide) rfl)
    (fun _ h1 => Exists.elim h1 (fun _ h2 => Exists.elim h2 (fun _ h3 => h3.2.2.2.2)))

/-! ## I3C transactions -/

theorem I3C_ADDR_ne_DATA : I3C_ADDR ≠ I3C_DATA := by decide

theorem I3C_ADDR_ne_CTRL : I3C_ADDR ≠ I3C_CTRL := by decide

theorem I3C_ADDR_ne_IRQ_CLR : I3C_ADDR ≠ I3C_IRQ_CLR := by decide

theorem I3C_DATA_ne_CTRL : I3C_DATA ≠ I3C_CTRL := by decide

theorem I3C_DATA_ne_IRQ_CLR : I3C_DATA ≠ I3C_IRQ_CLR := by decide

theorem I3C_CTRL_ne_IRQ_CLR : I3C_CTRL ≠ I3C_IRQ_CLR := by decide

theorem I3C_STATUS_ne_DATA : I3C_STATUS ≠ I3C_DATA := by decide

/-- What `i3c_write` does when the status polls are answered by `pre` (all
busy), `s1` (not busy), then, after the start, by `mid` (all busy), `s2` (not
busy) and `s3` (the sample tested for the error bit): it returns, and the
result, the final registers and the accesses of the call are as given. -/
theorem i3c_write_run (addr data : Nat) (w : Bus) (pre : List Nat) (s1 : Nat)
    (mid : List Nat) (s2 s3 : Nat) (rest : List Nat)
    (hst : w.status = pre ++ s1 :: (mid ++ s2 :: s3 :: rest))
    (hpre : ∀ x ∈ pre, x &&& I3C_STATUS_BUSY ≠ 0) (h1 : s1 &&& I3C_STATUS_BUSY = 0)
    (hmid : ∀ x ∈ mid, x &&& I3C_STATUS_BUSY ≠ 0) (h2 : s2 &&& I3C_STATUS_BUSY = 0) :
    ∃ r w', i3c_write addr data w = some (r, w') ∧
      r = (if s3 &&& I3C_STATUS_ERROR ≠ 0 then -1 else 0) ∧
      w'.status = rest ∧
      w'.mem I3C_ADDR = addr % 2 ^ 32 ∧
      w'.mem I3C_DATA = data % 2 ^ 32 ∧
      w'.trace = w.trace ++
        (pre.map (Access.read I3C_STATUS) ++
         [Access.read I3C_STATUS s1,
          Access.write I3C_ADDR (addr % 2 ^ 32),
          Access.write I3C_DATA (data % 2 ^ 32),
          Access.write I3C_CTRL
            ((I3C_CTRL_ENABLE ||| I3C_CTRL_WRITE_MODE ||| I3C_CTRL_START) % 2 ^ 32)] ++
         mid.map (Access.read I3C_STATUS) ++
         [Access.read I3C_STATUS s2, Access.read I3C_STATUS s3] ++
         (if s3 &&& I3C_STATUS_ERROR ≠ 0 then [] else [Access.write I3C_IRQ_CLR (1 % 2 ^ 32)])) := by
  have hAD := I3C_ADDR_ne_DATA
  have hAC := I3C_ADDR_ne_CTRL
  have hAQ := I3C_ADDR_ne_IRQ_CLR
  have hDC := I3C_DATA_ne_CTRL
  have hDQ := I3C_DATA_ne_IRQ_CLR
  cases hres : i3c_write addr data w with
  | none =>
    exfalso
    by_cases h3 : s3 &&& I3C_STATUS_ERROR ≠ 0
    · simp only [i3c_write, Bus.waitWhile, hst, pollWhile_run _ _ _ _ _ _ _ hpre h1,
        Bus.store, pollWhile_run _ _ _ _ _ _ _ hmid h2, Bus.sample, if_pos h3] at hres
      cases hres
    · simp only [i3c_write, Bus.waitWhile, hst, pollWhile_run _ _ _ _ _ _ _ hpre h1,
        Bus.store, pollWhile_run _ _ _ _ _ _ _ hmid h2, Bus.sample, if_neg h3] at hres
      cases hres
  | some p =>
    by_cases h3 : s3 &&& I3C_STATUS_ERROR ≠ 0
    · simp only [i3c_write, Bus.waitWhile, hst, pollWhile_run _ _ _ _ _ _ _ hpre h1,
        Bus.store, pollWhile_run _ _ _ _ _ _ _ hmid h2, Bus.sample, if_pos h3] at hres
      obtain rfl := Option.some.inj hres
      refine ⟨_, _, rfl, ?_⟩
      simp only [if_true, if_neg hAD, if_neg hAC, if_neg hAQ, if_neg hDC, if_neg hDQ, if_pos h3,
        List.append_assoc, List.cons_append, List.nil_append, List.append_nil, and_self]
    · simp only [i3c_write, Bus.waitWhile, hst, pollWhile_run _ _ _ _ _ _ _ hpre h1,
        Bus.store, pollWhile_run _ _ _ _ _ _ _ hmid h2, Bus.sample, if_neg h3] at hres
      obtain rfl := Option.some.inj hres
      refine ⟨_, _, rfl, ?_⟩
      simp only [if_true, if_neg hAD, if_neg hAC, if_neg hAQ, if_neg hDC, if_neg hDQ, if_neg h3,
        List.append_assoc, List.cons_append, List.nil_append, List.append_nil, and_self]

/-- What `i3c_read` does under the same answers of the status register. `out`
is the byte behind the output pointer before the call, `out'` after it. -/
theorem i3c_read_run (addr out : Nat) (w : Bus) (pre : List Nat) (s1 : Nat)
    (mid : List Nat) (s2 s3 : Nat) (rest : List Nat)
    (hst : w.status = pre ++ s1 :: (mid ++ s2 :: s3 :: rest))
    (hpre : ∀ x ∈ pre, x &&& I3C_STATUS_BUSY ≠ 0) (h1 : s1 &&& I3C_STATUS_BUSY = 0)
    (hmid : ∀ x ∈ mid, x &&& I3C_STATUS_BUSY ≠ 0) (h2 : s2 &&& I3C_STATUS_BUSY = 0) :
    ∃ r out' w', i3c_read addr out w = some (r, out', w') ∧
      r = (if s3 &&& I3C_STATUS_ERROR ≠ 0 then -1 else 0) ∧
      out' = (if s3 &&& I3C_STATUS_ERROR ≠ 0 then out else (w.mem I3C_DATA &&& 0xFF) % 256) ∧
      w'.status = rest ∧
      w'.mem I3C_ADDR = (addr ||| 1) % 2 ^ 32 ∧
      w'.mem I3C_DATA = w.mem I3C_DATA ∧
      w'.trace = w.trace ++
        (pre.map (Access.read I3C_STATUS) ++
         [Access.read I3C_STATUS s1,
          Access.write I3C_ADDR ((addr ||| 1) % 2 ^ 32),
          Access.write I3C_CTRL
            ((I3C_CTRL_ENABLE ||| I3C_CTRL_READ_MODE ||| I3C_CTRL_START) % 2 ^ 32)] ++
         mid.map (Access.read I3C_STATUS) ++
         [Access.read I3C_STATUS s2, Access.read I3C_STATUS s3] ++
         (if s3 &&& I3C_STATUS_ERROR ≠ 0 then []
          else [Access.read I3C_DATA (w.mem I3C_DATA),
                Access.write I3C_IRQ_CLR (1 % 2 ^ 32)])) := by
  have hAD := I3C_ADDR_ne_DATA
  have hAC := I3C_ADDR_ne_CTRL
  have hAQ := I3C_ADDR_ne_IRQ_CLR
  have hDC := I3C_DATA_ne_CTRL
  have hDQ := I3C_DATA_ne_IRQ_CLR
  cases hres : i3c_read addr out w with
  | none =>
    exfalso
    by_cases h3 : s3 &&& I3C_STATUS_ERROR ≠ 0
    · simp only [i3c_read, Bus.waitWhile, hst, pollWhile_run _ _ _ _ _ _ _ hpre h1,
        Bus.store, Bus.load, pollWhile_run _ _ _ _ _ _ _ hmid h2, Bus.sample, if_pos h3] at hres
      cases hres
    · simp only [i3c_read, Bus.waitWhile, hst, pollWhile_run _ _ _ _ _ _ _ hpre h1,
        Bus.store, Bus.load, pollWhile_run _ _ _ _ _ _ _ hmid h2, Bus.sample, if_neg h3] at hres
      cases hres
  | some p =>
    by_cases h3 : s3 &&& I3C_STATUS_ERROR ≠ 0
    · simp only [i3c_read, Bus.waitWhile, hst, pollWhile_run _ _ _ _ _ _ _ hpre h1,
        Bus.store, Bus.load, pollWhile_run _ _ _ _ _ _ _ hmid h2, Bus.sample, if_pos h3] at hres
      obtain rfl := Option.some.inj hres
      refine ⟨_, _, _, rfl, ?_⟩
      simp only [if_true, if_neg hAD, if_neg hAC, if_neg hAQ, if_neg hDC, if_neg hDQ,
        if_neg hAD.symm, if_pos h3,
        List.append_assoc, List.cons_append, List.nil_append, List.append_nil, and_self]
    · simp only [i3c_read, Bus.waitWhile, hst, pollWhile_run _ _ _ _ _ _ _ hpre h1,
        Bus.store, Bus.load, pollWhile_run _ _ _ _ _ _ _ hmid h2, Bus.sample, if_neg h3] at hres
      obtain rfl := Option.some.inj hres
      refine ⟨_, _, _, rfl, ?_⟩
      simp only [if_true, if_neg hAD, if_neg hAC, if_neg hAQ, if_neg hDC, if_neg hDQ,
        if_neg hAD.symm, if_neg h3,
        List.append_assoc, List.cons_append, List.nil_append, List.append_nil, and_self]

/-- Every run of `i3c_write` that returns was answered as `i3c_write_run`
supposes. -/
theorem i3c_write_shape (addr data : Nat) (w : Bus) (r : Int) (w' : Bus)
    (h : i3c_write addr data w = some (r, w')) :
    ∃ pre s1 mid s2 s3,
      w.status = pre ++ s1 :: (mid ++ s2 :: s3 :: w'.status) ∧
      (∀ x ∈ pre, x &&& I3C_STATUS_BUSY ≠ 0) ∧ s1 &&& I3C_STATUS_BUSY = 0 ∧
      (∀ x ∈ mid, x &&& I3C_STATUS_BUSY ≠ 0) ∧ s2 &&& I3C_STATUS_BUSY = 0 := by
  unfold i3c_write at h
  split at h
  · cases h
  · rename_i w1 hw1
    obtain ⟨pre, s1, hs1, hpre, h1⟩ := pollWhile_some _ _ _ _ _ _ hw1
    simp only at h
    split at h
    · cases h
    · rename_i w5 hw5
      obtain ⟨mid, s2, hs5, hmid, h2⟩ := pollWhile_some _ _ _ _ _ _ hw5
      split at h
      · cases h
      · rename_i s3 w6 hw6
        have hs6 := sample_some _ _ _ _ hw6
        have hw' : w'.status = w6.status := by
          split at h
          · rw [← (Prod.mk.inj (Option.some.inj h)).2]
          · rw [← (Prod.mk.inj (Option.some.inj h)).2]; rfl
        refine ⟨pre, s1, mid, s2, s3, ?_, hpre, h1, hmid, h2⟩
        rw [hs1, hw']
        simp only [Bus.store] at hs5
        rw [hs5, hs6]

/-- Every run of `i3c_read` that returns was answered as `i3c_read_run`
supposes. -/
theorem i3c_read_shape (addr out : Nat) (w : Bus) (r : Int) (out' : Nat) (w' : Bus)
    (h : i3c_read addr out w = some (r, out', w')) :
    ∃ pre s1 mid s2 s3,
      w.status = pre ++ s1 :: (mid ++ s2 :: s3 :: w'.status) ∧
      (∀ x ∈ pre, x &&& I3C_STATUS_BUSY ≠ 0) ∧ s1 &&& I3C_STATUS_BUSY = 0 ∧
      (∀ x ∈ mid, x &&& I3C_STATUS_BUSY ≠ 0) ∧ s2 &&& I3C_STATUS_BUSY = 0 := by
  unfold i3c_read at h
  split at h
  · cases h
  · rename_i w1 hw1
    obtain ⟨pre, s1, hs1, hpre, h1⟩ := pollWhile_some _ _ _ _ _ _ hw1
    simp only at h
    split at h
    · cases h
    · rename_i w4 hw4
      obtain ⟨mid, s2, hs4, hmid, h2⟩ := pollWhile_some _ _ _ _ _ _ hw4
      split at h
      · cases h
      · rename_i s3 w5 hw5
        have hs5 := sample_some _ _ _ _ hw5
        have hw' : w'.status = w5.status := by
          split at h
          · rw [← (Prod.mk.inj (Prod.mk.inj (Option.some.inj h)).2).2]
          · rw [← (Prod.mk.inj (Prod.mk.inj (Option.some.inj h)).2).2]; rfl
        refine ⟨pre, s1, mid, s2, s3, ?_, hpre, h1, hmid, h2⟩
        rw [hs1, hw']
        simp only [Bus.store] at hs4
        rw [hs4, hs5]

/-- C4: when the status polls are answered by `pre` (busy), `s1` (not busy),
then after the start by `mid` (busy), `s2` (not busy) and `s3`, the call
`i3c_write(addr, data)` returns; the status reads of the call are exactly
those, so `s3` is the sample taken after the busy wait; the address register
holds `addr`, the data register holds `data`, and enable+write-mode+start is
the one value written to the control register.  The result is 0 exactly when
the error bit of `s3` is clear and -1 otherwise; the interrupt-clear register
is written (once, with 1) exactly when the error bit is clear and is not
written at all otherwise. -/
theorem i3c_write_contract (addr data : Nat) (w : Bus) (pre : List Nat) (s1 : Nat)
    (mid : List Nat) (s2 s3 : Nat) (rest : List Nat)
    (ha : addr < 256) (hd : data < 256)
    (hst : w.status = pre ++ s1 :: (mid ++ s2 :: s3 :: rest))
    (hpre : ∀ x ∈ pre, x &&& I3C_STATUS_BUSY ≠ 0) (h1 : s1 &&& I3C_STATUS_BUSY = 0)
    (hmid : ∀ x ∈ mid, x &&& I3C_STATUS_BUSY ≠ 0) (h2 : s2 &&& I3C_STATUS_BUSY = 0) :
    ∃ r w', i3c_write addr data w = some (r, w') ∧
      readsOf I3C_STATUS (callTrace w w') = pre ++ s1 :: (mid ++ [s2, s3]) ∧
      w'.mem I3C_ADDR = addr ∧
      w'.mem I3C_DATA = data ∧
      writesTo I3C_CTRL (callTrace w w')
        = [I3C_CTRL_ENABLE ||| I3C_CTRL_WRITE_MODE ||| I3C_CTRL_START] ∧
      (r = 0 ↔ s3 &&& I3C_STATUS_ERROR = 0) ∧
      (s3 &&& I3C_STATUS_ERROR ≠ 0 → r = -1) ∧
      (s3 &&& I3C_STATUS_ERROR = 0 → writesTo I3C_IRQ_CLR (callTrace w w') = [1]) ∧
      (s3 &&& I3C_STATUS_ERROR ≠ 0 → writesTo I3C_IRQ_CLR (callTrace w w') = []) := by
  obtain ⟨r, w', hrun, hr, -, haddr, hdata, htr⟩ :=
    i3c_write_run addr data w pre s1 mid s2 s3 rest hst hpre h1 hmid h2
  have ham : addr % 2 ^ 32 = addr := Nat.mod_eq_of_lt (by omega)
  have hdm : data % 2 ^ 32 = data := Nat.mod_eq_of_lt (by omega)
  have hct := callTrace_append w w' _ htr
  have hAC := I3C_ADDR_ne_CTRL
  have hAQ := I3C_ADDR_ne_IRQ_CLR
  have hDC := I3C_DATA_ne_CTRL
  have hDQ := I3C_DATA_ne_IRQ_CLR
  have hCQ := I3C_CTRL_ne_IRQ_CLR
  refine ⟨r, w', hrun, ?_, by rw [haddr, ham], by rw [hdata, hdm], ?_, ?_, ?_, ?_, ?_⟩
  · rw [hct]
    by_cases h3 : s3 &&& I3C_STATUS_ERROR ≠ 0
    · simp [readsOf_append, readsOf, readsOf_reads_self, h3]
    · simp [readsOf_append, readsOf, readsOf_reads_self, h3]
  · rw [hct]
    by_cases h3 : s3 &&& I3C_STATUS_ERROR ≠ 0
    · simp [writesTo_append, writesTo, writesTo_reads, h3, hAC, hDC]
      decide
    · simp [writesTo_append, writesTo, writesTo_reads, h3, hAC, hDC, hCQ.symm]
      decide
  · rw [hr]
    by_cases h3 : s3 &&& I3C_STATUS_ERROR ≠ 0
    · simp [h3]
    · simp [Decidable.of_not_not h3]
  · intro h3
    rw [hr, if_pos h3]
  · intro h3
    have h3n : ¬ s3 &&& I3C_STATUS_ERROR ≠ 0 := fun hn => hn h3
    rw [hct, if_neg h3n]
    simp [writesTo_append, writesTo, writesTo_reads, hAQ, hDQ, hCQ]
  · intro h3
    rw [hct, if_pos h3]
    simp [writesTo_append, writesTo, writesTo_reads, hAQ, hDQ, hCQ]

/-- C4, at the call of `main`: `i3c_write(0x50, 0x12)` with the status register
idle, then BUSY after the start, then DONE without ERROR, returns 0 with the
address register at 0x50 and the data register at 0x12. -/
theorem i3c_write_contract_witness :
    ∃ r w', i3c_write 0x50 0x12
        (Bus.init 0 [0, I3C_STATUS_BUSY, I3C_STATUS_DONE, I3C_STATUS_DONE]) = some (r, w') ∧
      r = 0 ∧ w'.mem I3C_ADDR = 0x50 ∧ w'.mem I3C_DATA = 0x12 := by
  obtain ⟨r, w', hrun, -, ha, hd, -, hr, -⟩ :=
    i3c_write_contract 0x50 0x12
      (Bus.init 0 [0, I3C_STATUS_BUSY, I3C_STATUS_DONE, I3C_STATUS_DONE])
      [] 0 [I3C_STATUS_BUSY] I3C_STATUS_DONE I3C_STATUS_DONE []
      (by decide) (by decide) rfl (by decide) (by decide) (by decide) (by decide)
  exact ⟨r, w', hrun, hr.mpr (by decide), ha, hd⟩

/-- C5: under the same answers of the status register, `i3c_read(addr, data)`
returns; `addr | 1` is the one value written to the address register and
enable+read-mode+start the one value written to the control register.  When
the error bit of `s3` is clear the result is 0, the data register is read once
and its low 8 bits are stored through the output parameter; when the error bit
is set the result is -1 and the output byte keeps its prior value. -/
theorem i3c_read_contract (addr out : Nat) (w : Bus) (pre : List Nat) (s1 : Nat)
    (mid : List Nat) (s2 s3 : Nat) (rest : List Nat)
    (ha : addr < 256)
    (hst : w.status = pre ++ s1 :: (mid ++ s2 :: s3 :: rest))
    (hpre : ∀ x ∈ pre, x &&& I3C_STATUS_BUSY ≠ 0) (h1 : s1 &&& I3C_STATUS_BUSY = 0)
    (hmid : ∀ x ∈ mid, x &&& I3C_STATUS_BUSY ≠ 0) (h2 : s2 &&& I3C_STATUS_BUSY = 0) :
    ∃ r out' w', i3c_read addr out w = some (r, out', w') ∧
      readsOf I3C_STATUS (callTrace w w') = pre ++ s1 :: (mid ++ [s2, s3]) ∧
      writesTo I3C_ADDR (callTrace w w') = [addr ||| 1] ∧
      w'.mem I3C_ADDR = addr ||| 1 ∧
      writesTo I3C_CTRL (callTrace w w')
        = [I3C_CTRL_ENABLE ||| I3C_CTRL_READ_MODE ||| I3C_CTRL_START] ∧
      (s3 &&& I3C_STATUS_ERROR = 0 →
        r = 0 ∧ out' = w.mem I3C_DATA &&& 0xFF ∧
        readsOf I3C_DATA (callTrace w w') = [w.mem I3C_DATA]) ∧
      (s3 &&& I3C_STATUS_ERROR ≠ 0 → r = -1 ∧ out' = out) := by
  obtain ⟨r, out', w', hrun, hr, hout, -, haddr, -, htr⟩ :=
    i3c_read_run addr out w pre s1 mid s2 s3 rest hst hpre h1 hmid h2
  have halt : addr ||| 1 < 2 ^ 8 := Nat.or_lt_two_pow (by omega) (by decide)
  have ham : (addr ||| 1) % 2 ^ 32 = addr ||| 1 := Nat.mod_eq_of_lt (by omega)
  have hlow : ∀ v : Nat, (v &&& 0xFF) % 256 = v &&& 0xFF := fun v =>
    Nat.mod_eq_of_lt (Nat.and_lt_two_pow v (show 0xFF < 2 ^ 8 by decide))
  have hct := callTrace_append w w' _ htr
  have hAC := I3C_ADDR_ne_CTRL
  have hAQ := I3C_ADDR_ne_IRQ_CLR
  have hCQ := I3C_CTRL_ne_IRQ_CLR
  have hSD := I3C_STATUS_ne_DATA
  refine ⟨r, out', w', hrun, ?_, ?_, by rw [haddr, ham], ?_, ?_, ?_⟩
  · rw [hct]
    by_cases h3 : s3 &&& I3C_STATUS_ERROR ≠ 0
    · simp [readsOf_append, readsOf, readsOf_reads_self, h3]
    · simp [readsOf_append, readsOf, readsOf_reads_self, h3, hSD.symm]
  · rw [hct, ham]
    by_cases h3 : s3 &&& I3C_STATUS_ERROR ≠ 0
    · simp [writesTo_append, writesTo, writesTo_reads, h3, hAC.symm]
    · simp [writesTo_append, writesTo, writesTo_reads, h3, hAC.symm, hAQ.symm]
  · rw [hct]
    by_cases h3 : s3 &&& I3C_STATUS_ERROR ≠ 0
    · simp [writesTo_append, writesTo, writesTo_reads, h3, hAC]
      decide
    · simp [writesTo_append, writesTo, writesTo_reads, h3, hAC, hCQ.symm]
      decide
  · intro h3
    have h3n : ¬ s3 &&& I3C_STATUS_ERROR ≠ 0 := fun hn => hn h3
    refine ⟨by rw [hr, if_neg h3n], by rw [hout, if_neg h3n, hlow], ?_⟩
    rw [hct, if_neg h3n]
    simp [readsOf_append, readsOf, readsOf_reads_ne _ _ _ hSD, hSD]
  · intro h3
    exact ⟨by rw [hr, if_pos h3], by rw [hout, if_pos h3]⟩

/-- C5, at the call of `main`, `i3c_read(0x50, &i3c_read_data)`, once answered
without ERROR (the data register holds 0x1AB, the byte 0xAB is stored) and
once with ERROR (the output byte stays 7). -/
theorem i3c_read_contract_witness :
    (∃ r out' w', i3c_read 0x50 7
        (Bus.init 0x1AB [0, I3C_STATUS_BUSY, I3C_STATUS_DONE, I3C_STATUS_DONE])
          = some (r, out', w') ∧
      r = 0 ∧ out' = 0xAB ∧ w'.mem I3C_ADDR = 0x51) ∧
    (∃ r out' w', i3c_read 0x50 7
        (Bus.init 0x1AB [0, I3C_STATUS_BUSY, I3C_STATUS_DONE, I3C_STATUS_ERROR])
          = some (r, out', w') ∧
      r = -1 ∧ out' = 7) := by
  constructor
  · obtain ⟨r, out', w', hrun, -, -, ha, -, hok, -⟩ :=
      i3c_read_contract 0x50 7
        (Bus.init 0x1AB [0, I3C_STATUS_BUSY, I3C_STATUS_DONE, I3C_STATUS_DONE])
        [] 0 [I3C_STATUS_BUSY] I3C_STATUS_DONE I3C_STATUS_DONE []
        (by decide) rfl (by decide) (by decide) (by decide) (by decide)
    obtain ⟨hr, ho, -⟩ := hok (by decide)
    exact ⟨r, out', w', hrun, hr, ho, ha⟩
  · obtain ⟨r, out', w', hrun, -, -, -, -, -, herr⟩ :=
      i3c_read_contract 0x50 7
        (Bus.init 0x1AB [0, I3C_STATUS_BUSY, I3C_STATUS_DONE, I3C_STATUS_ERROR])
        [] 0 [I3C_STATUS_BUSY] I3C_STATUS_DONE I3C_STATUS_ERROR []
        (by decide) rfl (by decide) (by decide) (by decide) (by decide)
    exact ⟨r, out', w', hrun, (herr (by decide)).1, (herr (by decide)).2⟩

/-- C3, as the code has it: when the status sample `s3`, taken after the
transaction has been started and the busy wait has ended, has the error bit
set, `i3c_write` returns -1 and its one write to the data register (of `data`)
comes before the start command, none after it; `i3c_read` returns -1 and
neither reads nor writes the data register during the call. -/
theorem i3c_error_path (addr data out : Nat) (w : Bus) (pre : List Nat) (s1 : Nat)
    (mid : List Nat) (s2 s3 : Nat) (rest : List Nat)
    (hd : data < 256)
    (hst : w.status = pre ++ s1 :: (mid ++ s2 :: s3 :: rest))
    (hpre : ∀ x ∈ pre, x &&& I3C_STATUS_BUSY ≠ 0) (h1 : s1 &&& I3C_STATUS_BUSY = 0)
    (hmid : ∀ x ∈ mid, x &&& I3C_STATUS_BUSY ≠ 0) (h2 : s2 &&& I3C_STATUS_BUSY = 0)
    (herr : s3 &&& I3C_STATUS_ERROR ≠ 0) :
    (∃ w', i3c_write addr data w = some (-1, w') ∧
      ∃ before after,
        callTrace w w' = before ++
          Access.write I3C_CTRL (I3C_CTRL_ENABLE ||| I3C_CTRL_WRITE_MODE ||| I3C_CTRL_START)
            :: after ∧
        writesTo I3C_DATA before = [data] ∧
        writesTo I3C_DATA after = [] ∧
        readsOf I3C_STATUS after = mid ++ [s2, s3]) ∧
    (∃ out' w', i3c_read addr out w = some (-1, out', w') ∧
      readsOf I3C_DATA (callTrace w w') = [] ∧
      writesTo I3C_DATA (callTrace w w') = []) := by
  have hAD := I3C_ADDR_ne_DATA
  have hDC := I3C_DATA_ne_CTRL
  have hSD := I3C_STATUS_ne_DATA
  have hdm : data % 2 ^ 32 = data := Nat.mod_eq_of_lt (by omega)
  constructor
  · obtain ⟨r, w', hrun, hr, -, -, -, htr⟩ :=
      i3c_write_run addr data w pre s1 mid s2 s3 rest hst hpre h1 hmid h2
    rw [if_pos herr] at hr
    rw [if_pos herr, hdm] at htr
    subst hr
    refine ⟨w', hrun,
      pre.map (Access.read I3C_STATUS) ++
        [Access.read I3C_STATUS s1, Access.write I3C_ADDR (addr % 2 ^ 32),
         Access.write I3C_DATA data],
      mid.map (Access.read I3C_STATUS) ++ [Access.read I3C_STATUS s2, Access.read I3C_STATUS s3],
      ?_, ?_, ?_, ?_⟩
    · rw [callTrace_append w w' _ htr]
      simp only [List.append_assoc, List.cons_append, List.nil_append, List.append_nil]
      rfl
    · simp [writesTo_append, writesTo, writesTo_reads, hAD]
    · simp [writesTo_append, writesTo, writesTo_reads]
    · simp [readsOf_append, readsOf, readsOf_reads_self]
  · obtain ⟨r, out', w', hrun, hr, -, -, -, -, htr⟩ :=
      i3c_read_run addr out w pre s1 mid s2 s3 rest hst hpre h1 hmid h2
    rw [if_pos herr] at hr
    rw [if_pos herr] at htr
    subst hr
    refine ⟨out', w', hrun, ?_, ?_⟩
    · rw [callTrace_append w w' _ htr]
      simp [readsOf_append, readsOf, readsOf_reads_ne _ _ _ hSD, hSD]
    · rw [callTrace_append w w' _ htr]
      simp [writesTo_append, writesTo, writesTo_reads, hAD, hDC.symm]

/-- C3, at the calls of `main` with the device answering ERROR after the busy
wait: both calls return -1. -/
theorem i3c_error_path_witness :
    (∃ w', i3c_write 0x50 0x12
        (Bus.init 0 [0, I3C_STATUS_BUSY, I3C_STATUS_DONE, I3C_STATUS_ERROR]) = some (-1, w')) ∧
    (∃ out' w', i3c_read 0x50 7
        (Bus.init 0 [0, I3C_STATUS_BUSY, I3C_STATUS_DONE, I3C_STATUS_ERROR])
          = some (-1, out', w')) := by
  have h := i3c_error_path 0x50 0x12 7
    (Bus.init 0 [0, I3C_STATUS_BUSY, I3C_STATUS_DONE, I3C_STATUS_ERROR])
    [] 0 [I3C_STATUS_BUSY] I3C_STATUS_DONE I3C_STATUS_ERROR []
    (by decide) rfl (by decide) (by decide) (by decide) (by decide) (by decide)
  obtain ⟨⟨w1, hw, -⟩, ⟨o2, w2, hr, -⟩⟩ := h
  exact ⟨⟨w1, hw⟩, ⟨o2, w2, hr⟩⟩

/-- C3 as stated fails for `i3c_write`: in `i3c_write(0x50, 0x12)` with the
error bit set in the sample after the busy wait, the call returns -1 and has
written the data register (with 0x12). -/
theorem i3c_write_error_still_writes_data :
    (i3c_write 0x50 0x12
        (Bus.init 0 [0, I3C_STATUS_BUSY, I3C_STATUS_DONE, I3C_STATUS_ERROR])).map
      (fun p => (p.1, writesTo I3C_DATA
        (callTrace (Bus.init 0 [0, I3C_STATUS_BUSY, I3C_STATUS_DONE, I3C_STATUS_ERROR]) p.2)))
      = some (-1, [0x12]) := by
  decide

end Smoke
